import Mathlib

/-!
Verification of the coinmon price-aggregation core against its specification.

The development shallowly embeds the Go packages `internal/exchange` and
`internal/server` (files `internal/exchange/types.go` and
`internal/server/server.go`):

* pure functions (`New`, `Name.String`, `PriceURL`) become Lean functions;
* machine `float64` prices are modelled as exact rationals (`ℚ`); the claims
  only exercise the plain decimal subset of `strconv.ParseFloat`, which is
  exact in that range, so no rounding is modelled;
* an HTTP exchange is modelled by the observable outcome of the transport
  (`HttpOutcome`): one of the three early error returns of `fetchPrice`
  (request creation, `client.Do`, body read), or a response carrying a status
  code and a body;
* a response body is modelled as its raw text together with the JSON value it
  parses to, if any (`Body`); `encoding/json` field extraction into the typed
  response structs is embedded faithfully (absent or `null` fields give the
  zero value, mistyped fields give a decode error), while the textual JSON
  grammar itself is abstracted behind `Body.json`;
* the race coordinator `firstPriceWithDetails` spawns one goroutine per
  configured exchange, each of which sends one `result` on a channel with
  capacity `len(exchanges)`, and then drains the channel once per exchange;
  this is embedded by `raceDrain` over the list of results in arrival order
  (one entry per configured exchange — the channel capacity guarantees every
  goroutine can publish), which is exactly the state the sequential consumer
  loop observes.
-/

namespace Coinmon

/-! ## Exchange directory (`internal/exchange/types.go`) -/

/-- Go: `type Name int`. The enumeration constants below follow
`BINANCE Name = iota; BYBIT; BITGET`. -/
def BINANCE : Int := 0

/-- Second `iota` constant of `exchange.Name`. -/
def BYBIT : Int := 1

/-- Third `iota` constant of `exchange.Name`. -/
def BITGET : Int := 2

/-- Go: `func (n Name) String() string` indexes the fixed array
`[...]string{"binance", "bybit", "bitget"}[n]`; an index outside `0..2`
panics, which is modelled as `none`. -/
def NameString (n : Int) : Option String :=
  if n = BINANCE then some "binance"
  else if n = BYBIT then some "bybit"
  else if n = BITGET then some "bitget"
  else none

/-- Go: `type Exchange struct { Name Name; BaseURL string; PricePath string }`. -/
structure Exchange where
  Name : Int
  BaseURL : String
  PricePath : String
  deriving DecidableEq

/-- Go: `func baseURLs() map[Name]string`. A lookup of a key absent from the
map yields the zero value `""`, which the `else` branch reproduces. -/
def baseURLs (n : Int) : String :=
  if n = BINANCE then "https://api.binance.com"
  else if n = BYBIT then "https://api.bybit.com"
  else if n = BITGET then "https://api.bitget.com"
  else ""

/-- Go: `func pricePaths() map[Name]string`, with the same zero-value
semantics for absent keys. -/
def pricePaths (n : Int) : String :=
  if n = BINANCE then "api/v3/ticker/price"
  else if n = BYBIT then "v5/market/tickers"
  else if n = BITGET then "api/v2/spot/market/tickers"
  else ""

/-- Go: `func New(name Name) *Exchange`. -/
def New (name : Int) : Exchange :=
  ⟨name, baseURLs name, pricePaths name⟩

/-- Go: `func (e *Exchange) PriceURL(pair string) string`; Bybit receives the
fixed `category=spot` parameter ahead of `symbol`, the others only `symbol`. -/
def Exchange.PriceURL (e : Exchange) (pair : String) : String :=
  if e.Name = BYBIT then
    e.BaseURL ++ "/" ++ e.PricePath ++ "?category=spot&symbol=" ++ pair
  else
    e.BaseURL ++ "/" ++ e.PricePath ++ "?symbol=" ++ pair

/-! ## JSON values and `encoding/json` decoding into the response structs -/

/-- A JSON value; numbers are exact rationals. -/
inductive Json where
  | null
  | bool (b : Bool)
  | num (q : ℚ)
  | str (s : String)
  | arr (elems : List Json)
  | obj (fields : List (String × Json))

/-- Decode a JSON value into a Go `string` field: `null` leaves the zero
value, any non-string value is an `UnmarshalTypeError`. -/
def asString : Json → Option String
  | .str s => some s
  | .null => some ""
  | _ => none

/-- Decode a JSON value into a Go `int` field: only integral numbers are
accepted, `null` leaves the zero value. -/
def asInt : Json → Option Int
  | .num q => if q.den = 1 then some q.num else none
  | .null => some 0
  | _ => none

/-- Decode a JSON value into a Go slice field: `null` gives the empty slice,
a non-array value is a type error. -/
def asListOf (dec : Json → Option α) : Json → Option (List α)
  | .arr xs => xs.mapM dec
  | .null => some []
  | _ => none

/-- Extract the object field `k` and decode it with `dec`; an absent field
leaves the zero value `dflt`, as `encoding/json` does. -/
def fieldAs (o : List (String × Json)) (k : String) (dec : Json → Option α)
    (dflt : α) : Option α :=
  match o.lookup k with
  | none => some dflt
  | some v => dec v

/-- Go: `type BinanceResponse struct { Symbol string; Price string }`. -/
structure BinanceResponse where
  Symbol : String
  Price : String
  deriving DecidableEq

/-- Go: `type BinanceErrorResponse struct { Code int; Msg string }`. -/
structure BinanceErrorResponse where
  Code : Int
  Msg : String
  deriving DecidableEq

/-- One element of Bybit's `result.list`. -/
structure BybitListItem where
  Symbol : String
  LastPrice : String
  deriving DecidableEq

/-- The nested `result` struct of `BybitResponse`. -/
structure BybitResult where
  Category : String
  List : List BybitListItem
  deriving DecidableEq

/-- Go: `type BybitResponse struct { RetCode int; RetMsg string; Result ... }`. -/
structure BybitResponse where
  RetCode : Int
  RetMsg : String
  Result : BybitResult
  deriving DecidableEq

/-- One element of Bitget's `data` list. -/
structure BitgetDataItem where
  Symbol : String
  LastPr : String
  deriving DecidableEq

/-- Go: `type BitgetResponse struct { Code string; Msg string; Data ... }`. -/
structure BitgetResponse where
  Code : String
  Msg : String
  Data : List BitgetDataItem
  deriving DecidableEq

/-- `json.Unmarshal` of a value into `BinanceResponse` (tags `symbol`,
`price`); a top-level `null` leaves the zero struct. -/
def decodeBinanceResponse : Json → Option BinanceResponse
  | .obj o => do
      let s ← fieldAs o "symbol" asString ""
      let p ← fieldAs o "price" asString ""
      pure ⟨s, p⟩
  | .null => some ⟨"", ""⟩
  | _ => none

/-- `json.Unmarshal` of a value into `BinanceErrorResponse` (tags `code`,
`msg`). -/
def decodeBinanceErrorResponse : Json → Option BinanceErrorResponse
  | .obj o => do
      let c ← fieldAs o "code" asInt 0
      let m ← fieldAs o "msg" asString ""
      pure ⟨c, m⟩
  | .null => some ⟨0, ""⟩
  | _ => none

/-- Decoding of one `result.list` element (tags `symbol`, `lastPrice`). -/
def decodeBybitListItem : Json → Option BybitListItem
  | .obj o => do
      let s ← fieldAs o "symbol" asString ""
      let p ← fieldAs o "lastPrice" asString ""
      pure ⟨s, p⟩
  | .null => some ⟨"", ""⟩
  | _ => none

/-- Decoding of the nested `result` struct (tags `category`, `list`). -/
def decodeBybitResult : Json → Option BybitResult
  | .obj o => do
      let c ← fieldAs o "category" asString ""
      let l ← fieldAs o "list" (asListOf decodeBybitListItem) []
      pure ⟨c, l⟩
  | .null => some ⟨"", []⟩
  | _ => none

/-- `json.Unmarshal` of a value into `BybitResponse` (tags `retCode`,
`retMsg`, `result`). -/
def decodeBybitResponse : Json → Option BybitResponse
  | .obj o => do
      let rc ← fieldAs o "retCode" asInt 0
      let rm ← fieldAs o "retMsg" asString ""
      let res ← fieldAs o "result" decodeBybitResult ⟨"", []⟩
      pure ⟨rc, rm, res⟩
  | .null => some ⟨0, "", ⟨"", []⟩⟩
  | _ => none

/-- Decoding of one `data` element (tags `symbol`, `lastPr`). -/
def decodeBitgetDataItem : Json → Option BitgetDataItem
  | .obj o => do
      let s ← fieldAs o "symbol" asString ""
      let p ← fieldAs o "lastPr" asString ""
      pure ⟨s, p⟩
  | .null => some ⟨"", ""⟩
  | _ => none

/-- `json.Unmarshal` of a value into `BitgetResponse` (tags `code`, `msg`,
`data`). -/
def decodeBitgetResponse : Json → Option BitgetResponse
  | .obj o => do
      let c ← fieldAs o "code" asString ""
      let m ← fieldAs o "msg" asString ""
      let d ← fieldAs o "data" (asListOf decodeBitgetDataItem) []
      pure ⟨c, m, d⟩
  | .null => some ⟨"", "", []⟩
  | _ => none

/-! ## `strconv.ParseFloat` on its plain decimal subset -/

/-- Value of a digit string, most significant first. -/
def digitsValNat (cs : List Char) : Nat :=
  cs.foldl (fun a c => 10 * a + (c.toNat - 48)) 0

/-- Unsigned part of `strconv.ParseFloat`: a digit string with an optional
fractional part (`"5"`, `"5."`, `".5"`, `"5.25"`); at least one digit is
required. Exponents, hex floats and the special values `inf`/`nan` are
outside the modelled subset (no claim exercises them). -/
def parseUnsigned (cs : List Char) : Option ℚ :=
  match cs.dropWhile Char.isDigit with
  | [] =>
      if cs.takeWhile Char.isDigit = [] then none
      else some (digitsValNat (cs.takeWhile Char.isDigit))
  | '.' :: frac =>
      if frac.all Char.isDigit ∧ (cs.takeWhile Char.isDigit ≠ [] ∨ frac ≠ []) then
        some ((digitsValNat (cs.takeWhile Char.isDigit) : ℚ) +
          (digitsValNat frac : ℚ) / (10 : ℚ) ^ frac.length)
      else none
  | _ => none

/-- `strconv.ParseFloat(s, 64)` on the plain decimal subset: optional sign,
then an unsigned decimal; the result is the exact rational value. -/
def parseFloat (s : String) : Option ℚ :=
  match s.data with
  | '-' :: rest => (parseUnsigned rest).map (fun q => -q)
  | '+' :: rest => parseUnsigned rest
  | _ => parseUnsigned s.data

/-! ## The source adapter `fetchPrice` (`internal/server/server.go`) -/

/-- A response body: its raw text and the JSON value it parses to (`none`
when the bytes are not a single valid JSON value). -/
structure Body where
  raw : String
  json : Option Json

/-- The observable outcome of the HTTP transport inside `fetchPrice`: the
three early error returns (`http.NewRequestWithContext`, `client.Do`,
`io.ReadAll`), or a delivered response with its status code and body. -/
inductive HttpOutcome where
  | createRequestError (m : String)
  | doError (m : String)
  | readBodyError (m : String)
  | response (statusCode : Int) (body : Body)

/-- The error values `fetchPrice` can return, one constructor per
`fmt.Errorf` site; the wrapped text of the transport and JSON-library
errors is carried opaquely where it is never inspected. -/
inductive FetchErr where
  | createRequest (m : String)
  | doRequest (m : String)
  | readBody (m : String)
  | envelope (code : String) (msg : String)
  | unexpectedStatusBody (statusCode : Int) (body : String)
  | unexpectedStatus (statusCode : Int)
  | decodeResponse (m : String)
  | emptyResponse
  | parsePrice (s : String)
  | unknownExchange
  deriving DecidableEq

/-- The `Error()` text of each error value, as `fmt.Errorf` formats it. -/
def FetchErr.render : FetchErr → String
  | .createRequest m => "create request: " ++ m
  | .doRequest m => "do request: " ++ m
  | .readBody m => "read body: " ++ m
  | .envelope code msg => "code=" ++ code ++ ", msg=" ++ msg
  | .unexpectedStatusBody st b =>
      "unexpected status code: " ++ toString st ++ ", body: " ++ b
  | .unexpectedStatus st => "unexpected status code: " ++ toString st
  | .decodeResponse m => "decode response: " ++ m
  | .emptyResponse => "empty response"
  | .parsePrice s =>
      "parse price: strconv.ParseFloat: parsing " ++ "\"" ++ s ++ "\"" ++ ": invalid syntax"
  | .unknownExchange => "unknown exchange"

/-- The pair `(float64, error)` returned by `fetchPrice`. -/
structure FetchResult where
  price : ℚ
  err : Option FetchErr
  deriving DecidableEq

/-- Go: `func (s *Server) fetchPrice(ctx, e, pair) (float64, error)`.
`pair` only enters the request URL (`e.PriceURL(pair)`), whose effect is
absorbed into the quantified `HttpOutcome`. On a non-200 status the
exchange-specific error envelope is attempted and its code/message
surfaced, falling back to the raw status and body; on 200 the success
envelope is decoded, the (possibly empty) list is guarded by the
`len(...) == 0` check before `[0]` is read — rendered here as a `match`,
so the head access structurally requires a non-empty list — and the
textual price is parsed. -/
def fetchPrice (e : Exchange) (pair : String) (out : HttpOutcome) : FetchResult :=
  match out with
  | .createRequestError m => ⟨0, some (.createRequest m)⟩
  | .doError m => ⟨0, some (.doRequest m)⟩
  | .readBodyError m => ⟨0, some (.readBody m)⟩
  | .response statusCode body =>
    if statusCode ≠ 200 then
      if e.Name = BINANCE then
        match body.json.bind decodeBinanceErrorResponse with
        | none => ⟨0, some (.unexpectedStatusBody statusCode body.raw)⟩
        | some r => ⟨0, some (.envelope (toString r.Code) r.Msg)⟩
      else if e.Name = BYBIT then
        match body.json.bind decodeBybitResponse with
        | none => ⟨0, some (.unexpectedStatusBody statusCode body.raw)⟩
        | some r => ⟨0, some (.envelope (toString r.RetCode) r.RetMsg)⟩
      else if e.Name = BITGET then
        match body.json.bind decodeBitgetResponse with
        | none => ⟨0, some (.unexpectedStatusBody statusCode body.raw)⟩
        | some r => ⟨0, some (.envelope r.Code r.Msg)⟩
      else
        ⟨0, some (.unexpectedStatus statusCode)⟩
    else
      if e.Name = BINANCE then
        match body.json.bind decodeBinanceResponse with
        | none => ⟨0, some (.decodeResponse "invalid envelope")⟩
        | some r =>
          match parseFloat r.Price with
          | none => ⟨0, some (.parsePrice r.Price)⟩
          | some price => ⟨price, none⟩
      else if e.Name = BYBIT then
        match body.json.bind decodeBybitResponse with
        | none => ⟨0, some (.decodeResponse "invalid envelope")⟩
        | some r =>
          match r.Result.List with
          | [] => ⟨0, some .emptyResponse⟩
          | item :: _ =>
            match parseFloat item.LastPrice with
            | none => ⟨0, some (.parsePrice item.LastPrice)⟩
            | some price => ⟨price, none⟩
      else if e.Name = BITGET then
        match body.json.bind decodeBitgetResponse with
        | none => ⟨0, some (.decodeResponse "invalid envelope")⟩
        | some r =>
          match r.Data with
          | [] => ⟨0, some .emptyResponse⟩
          | item :: _ =>
            match parseFloat item.LastPr with
            | none => ⟨0, some (.parsePrice item.LastPr)⟩
            | some price => ⟨price, none⟩
      else
        ⟨0, some .unknownExchange⟩

/-! ## The race coordinator `firstPriceWithDetails` -/

/-- The `result` struct each goroutine sends on the completion channel:
`result{p, ex.Name.String(), e}` with `(p, e) = fetchPrice(ctx, ex, pair)`. -/
structure RaceOutcome where
  price : ℚ
  source : String
  err : Option FetchErr
  deriving DecidableEq

/-- The channel `result` produced by the goroutine for exchange `e`.
`Name.String()` panics outside the enumeration (`NameString _ = none`);
the server only ever spawns goroutines for configured exchanges, where the
`getD` default is never taken. -/
def raceResult (e : Exchange) (pair : String) (out : HttpOutcome) : RaceOutcome :=
  let r := fetchPrice e pair out
  ⟨r.price, (NameString e.Name).getD "", r.err⟩

/-- The error string recorded for a failed result:
`fmt.Sprintf("%s: %v", r.source, r.err)`. -/
def raceEntry (r : RaceOutcome) : String :=
  r.source ++ ": " ++ (r.err.map FetchErr.render).getD ""

/-- Hexadecimal digit, for `\u00XX` escapes. -/
def hexDigit (n : Nat) : Char :=
  if n < 10 then Char.ofNat (48 + n) else Char.ofNat (87 + n)

/-- `encoding/json` escaping of one character inside a string literal
(quotes, backslashes, HTML-sensitive characters and control characters). -/
def jsonEscapeChar (c : Char) : String :=
  if c = '"' then "\\\""
  else if c = '\\' then "\\\\"
  else if c = '\n' then "\\n"
  else if c = '\r' then "\\r"
  else if c = '\t' then "\\t"
  else if c = '<' then "\\u003c"
  else if c = '>' then "\\u003e"
  else if c = '&' then "\\u0026"
  else if c.toNat < 32 then
    "\\u00" ++ String.mk [hexDigit (c.toNat / 16), hexDigit (c.toNat % 16)]
  else String.singleton c

/-- `json.Marshal` of a Go string. -/
def jsonQuote (s : String) : String :=
  "\"" ++ String.join (s.data.map jsonEscapeChar) ++ "\""

/-- `json.Marshal` of the `[]string` error slice; the slice is `nil` (hence
`null`) exactly when no error was recorded. -/
def marshalStringList : List String → String
  | [] => "null"
  | e :: es =>
      "[" ++ (es.foldl (fun acc s => acc ++ "," ++ jsonQuote s) (jsonQuote e)) ++ "]"

/-- `json.Marshal` of the `errorResponse{Message: "all exchanges failed",
Errors: errors}` literal; marshalling this struct cannot fail. -/
def marshalAggregate (errs : List String) : String :=
  "\x7b\"message\":\"all exchanges failed\",\"errors\":" ++ marshalStringList errs ++ "\x7d"

/-- The consumer loop of `firstPriceWithDetails`: one channel receive per
configured exchange, in arrival order. An error result appends
`"<source>: <message>"` to the accumulator and continues; the first
success short-circuits (the `cancel()` it performs only stops siblings
from publishing, which the arrival list already reflects). -/
def raceDrain : List RaceOutcome → List String → (ℚ × String) ⊕ List String
  | [], errs => Sum.inr errs
  | r :: rest, errs =>
    match r.err with
    | some e => raceDrain rest (errs ++ [r.source ++ ": " ++ e.render])
    | none => Sum.inl (r.price, r.source)

/-- Go: `func (s *Server) firstPriceWithDetails(ctx, pair) (float64, string,
error)`, as a function of the arrival-ordered channel results: the first
success is returned as `(price, source, nil)`; if every result errs, the
aggregate `errorResponse` is marshalled and returned as the error. -/
def firstPriceWithDetails (arrivals : List RaceOutcome) : ℚ × String × Option String :=
  match raceDrain arrivals [] with
  | Sum.inl (p, src) => (p, src, none)
  | Sum.inr errs => (0, "", some (marshalAggregate errs))

/-- The exchange list built by `server.New`. -/
def serverExchanges : List Exchange :=
  [New BINANCE, New BYBIT, New BITGET]

/-! ## Branch equations for `fetchPrice` -/

/-- On a non-200 Binance response the error envelope decides the message. -/
lemma fetchPrice_binance_non200 (e : Exchange) (hn : e.Name = BINANCE)
    (pair : String) (s : Int) (b : Body) (hs : s ≠ 200) :
    fetchPrice e pair (.response s b) =
      match b.json.bind decodeBinanceErrorResponse with
      | none => ⟨0, some (.unexpectedStatusBody s b.raw)⟩
      | some r => ⟨0, some (.envelope (toString r.Code) r.Msg)⟩ := by
  simp [fetchPrice, hn, BINANCE, BYBIT, BITGET, hs]

/-- On a non-200 Bybit response the `BybitResponse` envelope decides the message. -/
lemma fetchPrice_bybit_non200 (e : Exchange) (hn : e.Name = BYBIT)
    (pair : String) (s : Int) (b : Body) (hs : s ≠ 200) :
    fetchPrice e pair (.response s b) =
      match b.json.bind decodeBybitResponse with
      | none => ⟨0, some (.unexpectedStatusBody s b.raw)⟩
      | some r => ⟨0, some (.envelope (toString r.RetCode) r.RetMsg)⟩ := by
  simp [fetchPrice, hn, BINANCE, BYBIT, BITGET, hs]

/-- On a non-200 Bitget response the `BitgetResponse` envelope decides the message. -/
lemma fetchPrice_bitget_non200 (e : Exchange) (hn : e.Name = BITGET)
    (pair : String) (s : Int) (b : Body) (hs : s ≠ 200) :
    fetchPrice e pair (.response s b) =
      match b.json.bind decodeBitgetResponse with
      | none => ⟨0, some (.unexpectedStatusBody s b.raw)⟩
      | some r => ⟨0, some (.envelope r.Code r.Msg)⟩ := by
  simp [fetchPrice, hn, BINANCE, BYBIT, BITGET, hs]

/-- The 200 path for Binance: decode, then parse the price string. -/
lemma fetchPrice_binance_200 (e : Exchange) (hn : e.Name = BINANCE)
    (pair : String) (b : Body) :
    fetchPrice e pair (.response 200 b) =
      match b.json.bind decodeBinanceResponse with
      | none => ⟨0, some (.decodeResponse "invalid envelope")⟩
      | some r =>
        match parseFloat r.Price with
        | none => ⟨0, some (.parsePrice r.Price)⟩
        | some price => ⟨price, none⟩ := by
  simp [fetchPrice, hn, BINANCE, BYBIT, BITGET]

/-- The 200 path for Bybit: decode, guard the empty list, parse
`list[0].lastPrice`. -/
lemma fetchPrice_bybit_200 (e : Exchange) (hn : e.Name = BYBIT)
    (pair : String) (b : Body) :
    fetchPrice e pair (.response 200 b) =
      match b.json.bind decodeBybitResponse with
      | none => ⟨0, some (.decodeResponse "invalid envelope")⟩
      | some r =>
        match r.Result.List with
        | [] => ⟨0, some .emptyResponse⟩
        | item :: _ =>
          match parseFloat item.LastPrice with
          | none => ⟨0, some (.parsePrice item.LastPrice)⟩
          | some price => ⟨price, none⟩ := by
  simp [fetchPrice, hn, BINANCE, BYBIT, BITGET]

/-- The 200 path for Bitget: decode, guard the empty list, parse
`data[0].lastPr`. -/
lemma fetchPrice_bitget_200 (e : Exchange) (hn : e.Name = BITGET)
    (pair : String) (b : Body) :
    fetchPrice e pair (.response 200 b) =
      match b.json.bind decodeBitgetResponse with
      | none => ⟨0, some (.decodeResponse "invalid envelope")⟩
      | some r =>
        match r.Data with
        | [] => ⟨0, some .emptyResponse⟩
        | item :: _ =>
          match parseFloat item.LastPr with
          | none => ⟨0, some (.parsePrice item.LastPr)⟩
          | some price => ⟨price, none⟩ := by
  simp [fetchPrice, hn, BINANCE, BYBIT, BITGET]

/-! ## Drain lemmas for the race loop -/

/-- When every arrived result is an error, the loop drains them all,
recording `"<source>: <message>"` for each in arrival order. -/
lemma raceDrain_all_errors : ∀ (l : List RaceOutcome) (acc : List String),
    (∀ r ∈ l, r.err.isSome) → raceDrain l acc = Sum.inr (acc ++ l.map raceEntry)
  | [], acc, _ => by simp [raceDrain]
  | r :: rest, acc, h => by
    obtain ⟨e, he⟩ := Option.isSome_iff_exists.mp (h r (List.mem_cons_self r rest))
    have ih := raceDrain_all_errors rest (acc ++ [r.source ++ ": " ++ e.render])
      (fun x hx => h x (List.mem_cons_of_mem r hx))
    simp [raceDrain, he, ih, raceEntry, List.map_cons]

/-- Errors arriving ahead of the first success are consumed and skipped;
the first success is returned. -/
lemma raceDrain_first_success : ∀ (pre post : List RaceOutcome)
    (acc : List String) (w : RaceOutcome),
    (∀ r ∈ pre, r.err.isSome) → w.err = none →
    raceDrain (pre ++ w :: post) acc = Sum.inl (w.price, w.source)
  | [], post, acc, w, _, hw => by simp [raceDrain, hw]
  | r :: rest, post, acc, w, h, hw => by
    obtain ⟨e, he⟩ := Option.isSome_iff_exists.mp (h r (List.mem_cons_self r rest))
    have ih := raceDrain_first_success rest post
      (acc ++ [r.source ++ ": " ++ e.render]) w
      (fun x hx => h x (List.mem_cons_of_mem r hx)) hw
    simp [raceDrain, he, ih]

/-! ## Parser lemmas -/

/-- An unsigned decimal parse is non-negative. -/
lemma parseUnsigned_nonneg (cs : List Char) (q : ℚ) (h : parseUnsigned cs = some q) :
    0 ≤ q := by
  unfold parseUnsigned at h
  split at h
  · split at h
    · exact absurd h (by simp)
    · simp at h
      subst h
      positivity
  · split at h
    · simp at h
      subst h
      positivity
    · exact absurd h (by simp)
  · exact absurd h (by simp)

/-- A parsed price string that does not begin with a minus sign is
non-negative. -/
lemma parseFloat_nonneg (s : String) (q : ℚ) (h : parseFloat s = some q)
    (hm : s.data.head? ≠ some '-') : 0 ≤ q := by
  unfold parseFloat at h
  split at h
  · simp_all
  · exact parseUnsigned_nonneg _ _ h
  · exact parseUnsigned_nonneg _ _ h

/-! ## Structural helpers -/

/-- The recorded error string of an envelope failure,
`"<source>: code=<code>, msg=<msg>"`. -/
lemma raceEntry_envelope (src c m : String) (p : ℚ) :
    raceEntry ⟨p, src, some (.envelope c m)⟩ = src ++ ": code=" ++ c ++ ", msg=" ++ m := by
  simp [raceEntry, FetchErr.render, String.append_assoc]
  congr 1

/-- Every non-200 response produces an error result. -/
lemma fetchPrice_non200_isSome (e : Exchange) (pair : String) (s : Int) (b : Body)
    (hs : s ≠ 200) : (fetchPrice e pair (.response s b)).err.isSome := by
  simp only [fetchPrice]
  rw [if_pos hs]
  repeat' split
  all_goals simp

/-- Every branch of `fetchPrice` either succeeds or returns the zero price. -/
lemma fetchPrice_ok_or_zero (e : Exchange) (pair : String) (out : HttpOutcome) :
    (fetchPrice e pair out).err = none ∨ (fetchPrice e pair out).price = 0 := by
  cases out <;> simp only [fetchPrice] <;> (repeat' split) <;> simp

/-- The `default` of the 200-path switch: a name outside the enumeration. -/
lemma fetchPrice_unknown_200 (e : Exchange) (pair : String) (b : Body)
    (h0 : e.Name ≠ BINANCE) (h1 : e.Name ≠ BYBIT) (h2 : e.Name ≠ BITGET) :
    fetchPrice e pair (.response 200 b) = ⟨0, some .unknownExchange⟩ := by
  simp [fetchPrice, h0, h1, h2]

/-! ## Sample bodies used by concrete instances -/

/-- The reference Binance success body of the spec's concrete scenario. -/
def refBinanceBody : Body :=
  ⟨"\x7b\"symbol\":\"BTCUSDT\",\"price\":\"99999.99\"\x7d",
   some (.obj [("symbol", .str "BTCUSDT"), ("price", .str "99999.99")])⟩

/-- A Binance success body whose price string is not a number. -/
def malformedPriceBody : Body :=
  ⟨"\x7b\"symbol\":\"BTCUSDT\",\"price\":\"not-a-number\"\x7d",
   some (.obj [("symbol", .str "BTCUSDT"), ("price", .str "not-a-number")])⟩

/-- A Binance success body carrying a negative price string. -/
def negPriceBody : Body :=
  ⟨"\x7b\"symbol\":\"BTCUSDT\",\"price\":\"-1\"\x7d",
   some (.obj [("symbol", .str "BTCUSDT"), ("price", .str "-1")])⟩

/-- A 200 Bybit body with a non-zero application `retCode` and a non-empty
list. -/
def bybitAppErrBody : Body :=
  ⟨"w", some (.obj [("retCode", .num 10001), ("retMsg", .str "params error"),
    ("result", .obj [("category", .str "spot"),
      ("list", .arr [.obj [("symbol", .str "BTCUSDT"), ("lastPrice", .str "1.5")]])])])⟩

/-- The same Bybit body as `bybitAppErrBody` but with `retCode = 0`. -/
def bybitAppOkBody : Body :=
  ⟨"w2", some (.obj [("retCode", .num 0), ("retMsg", .str "OK"),
    ("result", .obj [("category", .str "spot"),
      ("list", .arr [.obj [("symbol", .str "BTCUSDT"), ("lastPrice", .str "1.5")]])])])⟩

/-- A 200 Bybit body whose `result.list` is empty. -/
def emptyBybitBody : Body :=
  ⟨"eb", some (.obj [("retCode", .num 0), ("retMsg", .str "OK"),
    ("result", .obj [("category", .str "spot"), ("list", .arr [])])])⟩

/-- A Binance error body (as the exchange answers an invalid pair). -/
def binanceErrBody : Body :=
  ⟨"e0", some (.obj [("code", .num (-1121)), ("msg", .str "Invalid symbol.")])⟩

/-- A Bybit error body. -/
def bybitErrBody : Body :=
  ⟨"e1", some (.obj [("retCode", .num 10001), ("retMsg", .str "params error")])⟩

/-- A Bitget error body. -/
def bitgetErrBody : Body :=
  ⟨"e2", some (.obj [("code", .str "40034"), ("msg", .str "Parameter does not exist")])⟩

/-! ## Claims -/

/-- C6: for every pair string, `PriceURL` concatenates the base URL, a
slash, the price path, and the query string: Bybit gets
`?category=spot&symbol=<pair>` with `category` strictly ahead of `symbol`,
Binance and Bitget get `?symbol=<pair>` with no category parameter. -/
theorem priceURL_exact_queries (pair : String) :
    Exchange.PriceURL (New BYBIT) pair
        = "https://api.bybit.com/v5/market/tickers?category=spot&symbol=" ++ pair ∧
    Exchange.PriceURL (New BINANCE) pair
        = "https://api.binance.com/api/v3/ticker/price?symbol=" ++ pair ∧
    Exchange.PriceURL (New BITGET) pair
        = "https://api.bitget.com/api/v2/spot/market/tickers?symbol=" ++ pair :=
  ⟨rfl, rfl, rfl⟩

/-- C8: resolving an identifier (`New`, together with `Name.String`) is
pure and total on the fixed set `{BINANCE, BYBIT, BITGET}`, returning the
fixed base URL and price path for each of the three; `Name.String` fails
(panics, modelled as `none`) exactly on identifiers outside that set. -/
theorem resolve_total_on_fixed_set :
    (New BINANCE = ⟨BINANCE, "https://api.binance.com", "api/v3/ticker/price"⟩ ∧
     New BYBIT = ⟨BYBIT, "https://api.bybit.com", "v5/market/tickers"⟩ ∧
     New BITGET = ⟨BITGET, "https://api.bitget.com", "api/v2/spot/market/tickers"⟩) ∧
    (NameString BINANCE = some "binance" ∧ NameString BYBIT = some "bybit" ∧
     NameString BITGET = some "bitget") ∧
    (∀ n : Int, NameString n = none ↔ n ≠ BINANCE ∧ n ≠ BYBIT ∧ n ≠ BITGET) := by
  refine ⟨⟨rfl, rfl, rfl⟩, ⟨rfl, rfl, rfl⟩, ?_⟩
  intro n
  unfold NameString
  split_ifs <;> simp_all

/-- C7: the reference price string `"99999.99"` parses to exactly
`99999.99` and is returned as a success, while a malformed price string
yields a parse-failure error outcome, not a successful zero value. -/
theorem parse_roundtrip_exact :
    parseFloat "99999.99" = some (9999999 / 100 : ℚ) ∧
    fetchPrice (New BINANCE) "BTCUSDT" (.response 200 refBinanceBody)
        = ⟨9999999 / 100, none⟩ ∧
    fetchPrice (New BINANCE) "BTCUSDT" (.response 200 malformedPriceBody)
        = ⟨0, some (.parsePrice "not-a-number")⟩ := by
  have hp : parseFloat "99999.99" = some (9999999 / 100 : ℚ) := by
    simp [parseFloat, parseUnsigned, digitsValNat]
    norm_num
  have hd : refBinanceBody.json.bind decodeBinanceResponse
      = some ⟨"BTCUSDT", "99999.99"⟩ := by decide
  have hd' : malformedPriceBody.json.bind decodeBinanceResponse
      = some ⟨"BTCUSDT", "not-a-number"⟩ := by decide
  have hbad : parseFloat "not-a-number" = none := by
    simp [parseFloat, parseUnsigned]
  refine ⟨hp, ?_, ?_⟩
  · rw [fetchPrice_binance_200 (New BINANCE) rfl, hd]
    simp [hp]
  · rw [fetchPrice_binance_200 (New BINANCE) rfl, hd']
    simp [hbad]

/-- C9: whenever `fetchPrice` returns a non-nil error, its price component
is exactly `0`. -/
theorem error_implies_zero_price (e : Exchange) (pair : String) (out : HttpOutcome)
    (h : (fetchPrice e pair out).err ≠ none) : (fetchPrice e pair out).price = 0 := by
  rcases fetchPrice_ok_or_zero e pair out with h' | h'
  · exact absurd h' h
  · exact h'

/-- Witness for C9 at a concrete failing request. -/
theorem error_implies_zero_price_witness :
    (fetchPrice (New BINANCE) "BTCUSDT" (.response 500 ⟨"oops", none⟩)).price = 0 :=
  error_implies_zero_price (New BINANCE) "BTCUSDT" (.response 500 ⟨"oops", none⟩)
    (by decide)

/-- C3: `fetchPrice` never lets a fault past its boundary: a success is
only possible on a 200 response, and on a non-2xx status the
exchange-specific error envelope is decoded and its code and message
returned, falling back to a generic "unexpected status" error carrying
the raw status code and response body when the envelope cannot be
decoded. -/
theorem fetchPrice_error_boundary (pair : String) :
    (∀ (e : Exchange) (out : HttpOutcome), (fetchPrice e pair out).err = none →
        ∃ b, out = .response 200 b) ∧
    (∀ (s : Int) (b : Body), s ≠ 200 →
      ((b.json.bind decodeBinanceErrorResponse = none →
          fetchPrice (New BINANCE) pair (.response s b)
            = ⟨0, some (.unexpectedStatusBody s b.raw)⟩) ∧
       (∀ r, b.json.bind decodeBinanceErrorResponse = some r →
          fetchPrice (New BINANCE) pair (.response s b)
            = ⟨0, some (.envelope (toString r.Code) r.Msg)⟩)) ∧
      ((b.json.bind decodeBybitResponse = none →
          fetchPrice (New BYBIT) pair (.response s b)
            = ⟨0, some (.unexpectedStatusBody s b.raw)⟩) ∧
       (∀ r, b.json.bind decodeBybitResponse = some r →
          fetchPrice (New BYBIT) pair (.response s b)
            = ⟨0, some (.envelope (toString r.RetCode) r.RetMsg)⟩)) ∧
      ((b.json.bind decodeBitgetResponse = none →
          fetchPrice (New BITGET) pair (.response s b)
            = ⟨0, some (.unexpectedStatusBody s b.raw)⟩) ∧
       (∀ r, b.json.bind decodeBitgetResponse = some r →
          fetchPrice (New BITGET) pair (.response s b)
            = ⟨0, some (.envelope r.Code r.Msg)⟩))) ∧
    (∀ (s : Int) (raw : String),
      FetchErr.render (.unexpectedStatusBody s raw)
        = "unexpected status code: " ++ toString s ++ ", body: " ++ raw) := by
  refine ⟨?_, ?_, fun s raw => rfl⟩
  · intro e out h
    cases out with
    | createRequestError m => simp [fetchPrice] at h
    | doError m => simp [fetchPrice] at h
    | readBodyError m => simp [fetchPrice] at h
    | response s b =>
      rcases eq_or_ne s 200 with rfl | hs
      · exact ⟨b, rfl⟩
      · have := fetchPrice_non200_isSome e pair s b hs
        rw [h] at this
        simp at this
  · intro s b hs
    refine ⟨⟨?_, ?_⟩, ⟨?_, ?_⟩, ⟨?_, ?_⟩⟩
    · intro hd
      rw [fetchPrice_binance_non200 (New BINANCE) rfl pair s b hs, hd]
    · intro r hd
      rw [fetchPrice_binance_non200 (New BINANCE) rfl pair s b hs, hd]
    · intro hd
      rw [fetchPrice_bybit_non200 (New BYBIT) rfl pair s b hs, hd]
    · intro r hd
      rw [fetchPrice_bybit_non200 (New BYBIT) rfl pair s b hs, hd]
    · intro hd
      rw [fetchPrice_bitget_non200 (New BITGET) rfl pair s b hs, hd]
    · intro r hd
      rw [fetchPrice_bitget_non200 (New BITGET) rfl pair s b hs, hd]

/-- Witness for C3: a 500 response with an undecodable body yields the
generic error carrying the status code and the raw body. -/
theorem fetchPrice_error_boundary_witness :
    fetchPrice (New BINANCE) "BTCUSDT" (.response 500 ⟨"oops", none⟩)
      = ⟨0, some (.unexpectedStatusBody 500 "oops")⟩ :=
  (((fetchPrice_error_boundary "BTCUSDT").2.1 500 ⟨"oops", none⟩ (by decide)).1).1 rfl

/-- C4: a 2xx Bybit/Bitget response that decodes to an empty list is an
error outcome (`"empty response"`), and a success is only possible when
the decoded list is non-empty, so the `list[0]` access is reached only
under that hypothesis. -/
theorem empty_list_yields_error (pair : String) (b : Body) :
    (∀ r, b.json.bind decodeBybitResponse = some r → r.Result.List = [] →
        fetchPrice (New BYBIT) pair (.response 200 b) = ⟨0, some .emptyResponse⟩) ∧
    (∀ r, b.json.bind decodeBitgetResponse = some r → r.Data = [] →
        fetchPrice (New BITGET) pair (.response 200 b) = ⟨0, some .emptyResponse⟩) ∧
    (∀ r, b.json.bind decodeBybitResponse = some r →
        (fetchPrice (New BYBIT) pair (.response 200 b)).err = none →
        r.Result.List ≠ []) ∧
    (∀ r, b.json.bind decodeBitgetResponse = some r →
        (fetchPrice (New BITGET) pair (.response 200 b)).err = none →
        r.Data ≠ []) := by
  refine ⟨?_, ?_, ?_, ?_⟩
  · intro r hd hl
    rw [fetchPrice_bybit_200 (New BYBIT) rfl pair b, hd]
    simp [hl]
  · intro r hd hl
    rw [fetchPrice_bitget_200 (New BITGET) rfl pair b, hd]
    simp [hl]
  · intro r hd h hl
    rw [fetchPrice_bybit_200 (New BYBIT) rfl pair b, hd] at h
    simp [hl] at h
  · intro r hd h hl
    rw [fetchPrice_bitget_200 (New BITGET) rfl pair b, hd] at h
    simp [hl] at h

/-- Witness for C4 at a concrete empty-list Bybit body. -/
theorem empty_list_yields_error_witness :
    fetchPrice (New BYBIT) "BTCUSDT" (.response 200 emptyBybitBody)
      = ⟨0, some .emptyResponse⟩ :=
  (empty_list_yields_error "BTCUSDT" emptyBybitBody).1 ⟨0, "OK", ⟨"spot", []⟩⟩
    (by decide) rfl

/-- Counterexample to C5 as stated: a 200 Binance body whose price string
is `"-1"` is returned as a success carrying a negative price — the code
performs no non-negativity check. -/
theorem price_nonneg_counterexample :
    (fetchPrice (New BINANCE) "BTCUSDT" (.response 200 negPriceBody)).err = none ∧
    (fetchPrice (New BINANCE) "BTCUSDT" (.response 200 negPriceBody)).price < 0 := by
  have hd : negPriceBody.json.bind decodeBinanceResponse
      = some ⟨"BTCUSDT", "-1"⟩ := by decide
  have hp : parseFloat "-1" = some (-1 : ℚ) := by
    simp [parseFloat, parseUnsigned, digitsValNat]
  rw [fetchPrice_binance_200 (New BINANCE) rfl, hd]
  simp [hp]

/-- C5 (amended): whenever a price is present it is exactly the value
the decoded envelope's own price string parses to — Binance's `price`
field, the `lastPrice` of the head of Bybit's `result.list`, the
`lastPr` of the head of Bitget's `data` — with no transformation or
sign check applied, and it is therefore non-negative exactly when that
source string does not begin with a minus sign. -/
theorem price_present_is_source_parse (pair : String) (b : Body) :
    (∀ r, b.json.bind decodeBinanceResponse = some r →
        (fetchPrice (New BINANCE) pair (.response 200 b)).err = none →
        parseFloat r.Price
            = some (fetchPrice (New BINANCE) pair (.response 200 b)).price ∧
        (r.Price.data.head? ≠ some '-' →
          0 ≤ (fetchPrice (New BINANCE) pair (.response 200 b)).price)) ∧
    (∀ r item rest, b.json.bind decodeBybitResponse = some r →
        r.Result.List = item :: rest →
        (fetchPrice (New BYBIT) pair (.response 200 b)).err = none →
        parseFloat item.LastPrice
            = some (fetchPrice (New BYBIT) pair (.response 200 b)).price ∧
        (item.LastPrice.data.head? ≠ some '-' →
          0 ≤ (fetchPrice (New BYBIT) pair (.response 200 b)).price)) ∧
    (∀ r item rest, b.json.bind decodeBitgetResponse = some r →
        r.Data = item :: rest →
        (fetchPrice (New BITGET) pair (.response 200 b)).err = none →
        parseFloat item.LastPr
            = some (fetchPrice (New BITGET) pair (.response 200 b)).price ∧
        (item.LastPr.data.head? ≠ some '-' →
          0 ≤ (fetchPrice (New BITGET) pair (.response 200 b)).price)) := by
  refine ⟨?_, ?_, ?_⟩
  · intro r hd h
    rw [fetchPrice_binance_200 (New BINANCE) rfl pair b, hd] at h ⊢
    cases hp : parseFloat r.Price with
    | none => simp [hp] at h
    | some q =>
      constructor
      · simp [hp]
      · intro hm
        simpa [hp] using parseFloat_nonneg r.Price q hp hm
  · intro r item rest hd hl h
    rw [fetchPrice_bybit_200 (New BYBIT) rfl pair b, hd] at h ⊢
    cases hp : parseFloat item.LastPrice with
    | none => simp [hl, hp] at h
    | some q =>
      constructor
      · simp [hl, hp]
      · intro hm
        simpa [hl, hp] using parseFloat_nonneg item.LastPrice q hp hm
  · intro r item rest hd hl h
    rw [fetchPrice_bitget_200 (New BITGET) rfl pair b, hd] at h ⊢
    cases hp : parseFloat item.LastPr with
    | none => simp [hl, hp] at h
    | some q =>
      constructor
      · simp [hl, hp]
      · intro hm
        simpa [hl, hp] using parseFloat_nonneg item.LastPr q hp hm

/-- Witness for the amended C5 at the reference success body: the
returned price is the parse of the decoded body's own price field. -/
theorem price_present_is_source_parse_witness :
    parseFloat "99999.99"
        = some (fetchPrice (New BINANCE) "BTCUSDT" (.response 200 refBinanceBody)).price ∧
    ("99999.99".data.head? ≠ some '-' →
      0 ≤ (fetchPrice (New BINANCE) "BTCUSDT" (.response 200 refBinanceBody)).price) :=
  (price_present_is_source_parse "BTCUSDT" refBinanceBody).1
    ⟨"BTCUSDT", "99999.99"⟩ (by decide) (by decide)

/-- C10: on a 200 response the application-level status fields (Bybit
`retCode`/`retMsg`, Bitget `code`/`msg`) are ignored — the outcome is a
function of the decoded `result`/`data` alone — and a 200 body with a
non-zero application code and a non-empty list is still a success. -/
theorem app_status_fields_ignored (pair : String) :
    (∀ (b b' : Body) (r r' : BybitResponse),
        b.json.bind decodeBybitResponse = some r →
        b'.json.bind decodeBybitResponse = some r' →
        r.Result = r'.Result →
        fetchPrice (New BYBIT) pair (.response 200 b)
          = fetchPrice (New BYBIT) pair (.response 200 b')) ∧
    (∀ (b b' : Body) (r r' : BitgetResponse),
        b.json.bind decodeBitgetResponse = some r →
        b'.json.bind decodeBitgetResponse = some r' →
        r.Data = r'.Data →
        fetchPrice (New BITGET) pair (.response 200 b)
          = fetchPrice (New BITGET) pair (.response 200 b')) ∧
    fetchPrice (New BYBIT) pair (.response 200 bybitAppErrBody) = ⟨3 / 2, none⟩ := by
  refine ⟨?_, ?_, ?_⟩
  · intro b b' r r' hd hd' hrr
    rw [fetchPrice_bybit_200 (New BYBIT) rfl pair b, hd,
        fetchPrice_bybit_200 (New BYBIT) rfl pair b', hd']
    simp [hrr]
  · intro b b' r r' hd hd' hrr
    rw [fetchPrice_bitget_200 (New BITGET) rfl pair b, hd,
        fetchPrice_bitget_200 (New BITGET) rfl pair b', hd']
    simp [hrr]
  · have hd : bybitAppErrBody.json.bind decodeBybitResponse
        = some ⟨10001, "params error", ⟨"spot", [⟨"BTCUSDT", "1.5"⟩]⟩⟩ := by decide
    have hp : parseFloat "1.5" = some (3 / 2 : ℚ) := by
      simp [parseFloat, parseUnsigned, digitsValNat]
      norm_num
    rw [fetchPrice_bybit_200 (New BYBIT) rfl pair bybitAppErrBody, hd]
    simp [hp]

/-- Witness for C10: two bodies differing only in `retCode`/`retMsg`
produce the same outcome. -/
theorem app_status_fields_ignored_witness :
    fetchPrice (New BYBIT) "BTCUSDT" (.response 200 bybitAppErrBody)
      = fetchPrice (New BYBIT) "BTCUSDT" (.response 200 bybitAppOkBody) :=
  (app_status_fields_ignored "BTCUSDT").1 bybitAppErrBody bybitAppOkBody
    ⟨10001, "params error", ⟨"spot", [⟨"BTCUSDT", "1.5"⟩]⟩⟩
    ⟨0, "OK", ⟨"spot", [⟨"BTCUSDT", "1.5"⟩]⟩⟩
    (by decide) (by decide) rfl

/-- C1: whatever errors arrive first are recorded and skipped, and the
race returns the price and source identifier of the first success in
arrival order. -/
theorem race_returns_first_success (pair : String) (ex : Exchange) (out : HttpOutcome)
    (pre post : List RaceOutcome)
    (hpre : ∀ r ∈ pre, r.err.isSome)
    (hok : (fetchPrice ex pair out).err = none) :
    firstPriceWithDetails (pre ++ raceResult ex pair out :: post)
      = ((fetchPrice ex pair out).price, (NameString ex.Name).getD "", none) := by
  unfold firstPriceWithDetails
  rw [raceDrain_first_success pre post [] (raceResult ex pair out) hpre
      (by simp [raceResult, hok])]
  simp [raceResult]

/-- Witness for C1: an early Bybit failure does not end the race; the
Binance success that arrives after it wins. -/
theorem race_returns_first_success_witness :
    firstPriceWithDetails
        ([⟨0, "bybit", some .emptyResponse⟩] ++
          raceResult (New BINANCE) "BTCUSDT" (.response 200 refBinanceBody) :: [])
      = ((fetchPrice (New BINANCE) "BTCUSDT" (.response 200 refBinanceBody)).price,
         (NameString (New BINANCE).Name).getD "", none) :=
  race_returns_first_success "BTCUSDT" (New BINANCE) (.response 200 refBinanceBody)
    [⟨0, "bybit", some .emptyResponse⟩] [] (by decide) (by decide)

/-- C2: if every configured exchange errs (here with a decodable error
envelope on a non-2xx status), the race returns the aggregate failure;
its error list has exactly one entry per configured exchange (three),
and for every exchange the entry
`"<identifier>: code=<code>, msg=<message>"` appears in the list,
whatever the arrival order. -/
theorem race_all_fail_aggregate
    (pair : String) (s₀ s₁ s₂ : Int) (b₀ b₁ b₂ : Body)
    (r₀ : BinanceErrorResponse) (r₁ : BybitResponse) (r₂ : BitgetResponse)
    (hs₀ : s₀ ≠ 200) (hs₁ : s₁ ≠ 200) (hs₂ : s₂ ≠ 200)
    (hd₀ : b₀.json.bind decodeBinanceErrorResponse = some r₀)
    (hd₁ : b₁.json.bind decodeBybitResponse = some r₁)
    (hd₂ : b₂.json.bind decodeBitgetResponse = some r₂)
    (arrivals : List RaceOutcome)
    (hperm : arrivals.Perm
      [raceResult (New BINANCE) pair (.response s₀ b₀),
       raceResult (New BYBIT) pair (.response s₁ b₁),
       raceResult (New BITGET) pair (.response s₂ b₂)]) :
    firstPriceWithDetails arrivals
        = (0, "", some (marshalAggregate (arrivals.map raceEntry))) ∧
    (arrivals.map raceEntry).length = serverExchanges.length ∧
    serverExchanges.length = 3 ∧
    (("binance: code=" ++ toString r₀.Code ++ ", msg=" ++ r₀.Msg)
        ∈ arrivals.map raceEntry) ∧
    (("bybit: code=" ++ toString r₁.RetCode ++ ", msg=" ++ r₁.RetMsg)
        ∈ arrivals.map raceEntry) ∧
    (("bitget: code=" ++ r₂.Code ++ ", msg=" ++ r₂.Msg)
        ∈ arrivals.map raceEntry) := by
  have f₀ : fetchPrice (New BINANCE) pair (.response s₀ b₀)
      = ⟨0, some (.envelope (toString r₀.Code) r₀.Msg)⟩ := by
    rw [fetchPrice_binance_non200 (New BINANCE) rfl pair s₀ b₀ hs₀, hd₀]
  have f₁ : fetchPrice (New BYBIT) pair (.response s₁ b₁)
      = ⟨0, some (.envelope (toString r₁.RetCode) r₁.RetMsg)⟩ := by
    rw [fetchPrice_bybit_non200 (New BYBIT) rfl pair s₁ b₁ hs₁, hd₁]
  have f₂ : fetchPrice (New BITGET) pair (.response s₂ b₂)
      = ⟨0, some (.envelope r₂.Code r₂.Msg)⟩ := by
    rw [fetchPrice_bitget_non200 (New BITGET) rfl pair s₂ b₂ hs₂, hd₂]
  have w₀ : raceResult (New BINANCE) pair (.response s₀ b₀)
      = ⟨0, "binance", some (.envelope (toString r₀.Code) r₀.Msg)⟩ := by
    simp only [raceResult]
    rw [f₀]
    rfl
  have w₁ : raceResult (New BYBIT) pair (.response s₁ b₁)
      = ⟨0, "bybit", some (.envelope (toString r₁.RetCode) r₁.RetMsg)⟩ := by
    simp only [raceResult]
    rw [f₁]
    rfl
  have w₂ : raceResult (New BITGET) pair (.response s₂ b₂)
      = ⟨0, "bitget", some (.envelope r₂.Code r₂.Msg)⟩ := by
    simp only [raceResult]
    rw [f₂]
    rfl
  have hall : ∀ x ∈ arrivals, x.err.isSome := by
    intro x hx
    have hx3 := hperm.mem_iff.mp hx
    rw [w₀, w₁, w₂] at hx3
    simp only [List.mem_cons, List.mem_singleton, List.not_mem_nil, or_false] at hx3
    rcases hx3 with rfl | rfl | rfl <;> simp
  refine ⟨?_, ?_, rfl, ?_, ?_, ?_⟩
  · unfold firstPriceWithDetails
    rw [raceDrain_all_errors arrivals [] hall]
    simp
  · simp [hperm.length_eq, serverExchanges]
  · have hm : raceResult (New BINANCE) pair (.response s₀ b₀) ∈ arrivals :=
      hperm.mem_iff.mpr (by simp)
    have hmm := List.mem_map_of_mem raceEntry hm
    rw [w₀, raceEntry_envelope] at hmm
    exact hmm
  · have hm : raceResult (New BYBIT) pair (.response s₁ b₁) ∈ arrivals :=
      hperm.mem_iff.mpr (by simp)
    have hmm := List.mem_map_of_mem raceEntry hm
    rw [w₁, raceEntry_envelope] at hmm
    exact hmm
  · have hm : raceResult (New BITGET) pair (.response s₂ b₂) ∈ arrivals :=
      hperm.mem_iff.mpr (by simp)
    have hmm := List.mem_map_of_mem raceEntry hm
    rw [w₂, raceEntry_envelope] at hmm
    exact hmm

/-- Witness for C2: all three exchanges answer 400 with their native
envelopes; the Binance entry appears in the recorded error list. -/
theorem race_all_fail_aggregate_witness :
    ("binance: code=" ++ toString (-1121 : Int) ++ ", msg=" ++ "Invalid symbol.")
      ∈ ([raceResult (New BINANCE) "INVALID" (.response 400 binanceErrBody),
          raceResult (New BYBIT) "INVALID" (.response 400 bybitErrBody),
          raceResult (New BITGET) "INVALID" (.response 400 bitgetErrBody)].map raceEntry) :=
  (race_all_fail_aggregate "INVALID" 400 400 400 binanceErrBody bybitErrBody bitgetErrBody
    ⟨-1121, "Invalid symbol."⟩ ⟨10001, "params error", ⟨"", []⟩⟩
    ⟨"40034", "Parameter does not exist", []⟩
    (by decide) (by decide) (by decide) (by decide) (by decide) (by decide)
    _ (List.Perm.refl _)).2.2.2.1

end Coinmon
